import Mathlib

set_option linter.unusedVariables false

/-!
Shallow embedding of `src/dice_roller.ino`, an Arduino sketch driving two
3-bit BCD seven-segment dice displays, two active-low buttons and a buzzer.

Hardware side effects (`digitalWrite`, `tone`, `noTone`, `delay`) are recorded
as an event trace, in issue order.  The Arduino pseudo-random generator is
modelled as a stream of raw `random()` draws (`Nat → Nat`) together with the
number of draws consumed so far; `random(n)` reduces the next raw draw modulo
`n`, as in the Arduino core.
-/

/-- Hardware side effects of the sketch, in the order they are issued. -/
inductive Event : Type
  | write (pin : Int) (val : Int)
  | tone (pin : Int) (freq : Int) (dur : Int)
  | noTone (pin : Int)
  | delay (ms : Int)
  deriving DecidableEq, Repr

/-- Arduino constant `LOW`. -/
def LOW : Int := 0

/-- Arduino constant `HIGH`. -/
def HIGH : Int := 1

/-- Source constant `seg1_pins`: the BCD pins 3, 4, 5 of die 1. -/
def seg1_pins : List Int := [3, 4, 5]

/-- Source constant `seg2_pins`: the BCD pins 8, 9, 10 of die 2. -/
def seg2_pins : List Int := [8, 9, 10]

/-- Source constant `const int button1 = 2;`. -/
def button1 : Int := 2

/-- Source constant `const int button2 = 11;`. -/
def button2 : Int := 11

/-- Source constant `const int buzzerPin = 6;`. -/
def buzzerPin : Int := 6

/-- State of the Arduino pseudo-random generator: the stream of raw draws that
successive `random()` calls would return, and how many have been consumed. -/
structure RandState where
  stream : Nat → Nat
  idx : Nat

/-- Arduino core `random(howbig)`: returns `0` without drawing when
`howbig = 0`, otherwise consumes the next raw draw and reduces it modulo
`howbig`.  The sketch only calls it with `howbig = 6` and `howbig = 500`. -/
def randomUpTo (howbig : Int) (s : RandState) : Int × RandState :=
  if howbig = 0 then (0, s)
  else (((s.stream s.idx : Int)).emod howbig, ⟨s.stream, s.idx + 1⟩)

/-- Arduino core `random(howsmall, howbig)`:
`howsmall + random(howbig - howsmall)`. -/
def randomIn (howsmall howbig : Int) (s : RandState) : Int × RandState :=
  let p := randomUpTo (howbig - howsmall) s
  (howsmall + p.1, p.2)

/-- The C expression `number >> i & 0x01` on an AVR `int`: `>>` on a signed
int is the arithmetic shift (floor division by `2 ^ i`) and `& 0x01` extracts
the low two's-complement bit (the nonnegative remainder modulo 2). -/
def bitOf (number : Int) (i : Nat) : Int := (number.fdiv (2 ^ i)).emod 2

/-- Source function `showNumber(number, pins)`: for `i = 0, 1, 2` issue
`digitalWrite(pins[i], number >> i & 0x01)`. -/
def showNumber (number : Int) (pins : List Int) : List Event :=
  (List.range 3).map fun i => Event.write (pins.getD i 0) (bitOf number i)

/-- The loop of `playRollSound` with `n` iterations left: each iteration is
`tone(buzzerPin, 500 + random(500), 20); delay(20);`. -/
def playRollSoundLoop : Nat → RandState → List Event × RandState
  | 0, s => ([], s)
  | Nat.succ n, s =>
    let p := randomUpTo 500 s
    let rest := playRollSoundLoop n p.2
    (Event.tone buzzerPin (500 + p.1) 20 :: Event.delay 20 :: rest.1, rest.2)

/-- Source function `playRollSound(duration)`: `duration` tone/delay slices (none when
`duration <= 0`, as the C `for` loop does not run), then `noTone(buzzerPin)`. -/
def playRollSound (duration : Int) (s : RandState) : List Event × RandState :=
  let p := playRollSoundLoop duration.toNat s
  (p.1 ++ [Event.noTone buzzerPin], p.2)

/-- Source function `playStopSound()`: `tone(buzzerPin, 200, 100); delay(100);
noTone(buzzerPin);`. -/
def playStopSound : List Event :=
  [Event.tone buzzerPin 200 100, Event.delay 100, Event.noTone buzzerPin]

/-- The argument of the call `playRollSound(i * 0.5)`: the `double` product
`i * 0.5` is exact (it is `i/2` as a real number for every value an AVR `int`
can take), and the implicit conversion back to the `int` parameter truncates
toward zero, so the callee receives `i.tdiv 2`. -/
def cIntOfHalf (i : Int) : Int := i.tdiv 2

/-- Body of the `rollDice` loop at index `i`:
`playRollSound(i * 0.5); showNumber(random(1, 7), seg1_pins);
showNumber(random(1, 7), seg2_pins); delay(delayTime + i * 2);`. -/
def rollDiceFrame (i : Nat) (delayTime : Int) (s : RandState) :
    List Event × RandState :=
  let snd := playRollSound (cIntOfHalf i) s
  let d1 := randomIn 1 7 snd.2
  let d2 := randomIn 1 7 d1.2
  (snd.1 ++ showNumber d1.1 seg1_pins ++ showNumber d2.1 seg2_pins ++
      [Event.delay (delayTime + i * 2)],
    d2.2)

/-- The `rollDice` loop with `n` iterations left, current index `i`. -/
def rollDiceLoop : Nat → Nat → Int → RandState → List Event × RandState
  | 0, _, _, s => ([], s)
  | Nat.succ n, i, delayTime, s =>
    let f := rollDiceFrame i delayTime s
    let rest := rollDiceLoop n (i + 1) delayTime f.2
    (f.1 ++ rest.1, rest.2)

/-- Source function `rollDice(count, delayTime)`: the C `for (int i = 0; i < count; i++)`
loop runs `max count 0` times. -/
def rollDice (count delayTime : Int) (s : RandState) : List Event × RandState :=
  rollDiceLoop count.toNat 0 delayTime s

/-- Source function `showResult()`: `showNumber(random(1, 7), seg1_pins);
showNumber(random(1, 7), seg2_pins);`. -/
def showResult (s : RandState) : List Event × RandState :=
  let d1 := randomIn 1 7 s
  let d2 := randomIn 1 7 d1.2
  (showNumber d1.1 seg1_pins ++ showNumber d2.1 seg2_pins, d2.2)

/-- One poll of `loop()`, given the two sampled button levels: when either
reads `LOW`, run `rollDice(20, 50); playStopSound(); showResult();
delay(300);`, otherwise do nothing. -/
def loopBody (b1 b2 : Int) (s : RandState) : List Event × RandState :=
  if b1 = LOW ∨ b2 = LOW then
    let roll := rollDice 20 50 s
    let fin := showResult roll.2
    (roll.1 ++ playStopSound ++ fin.1 ++ [Event.delay 300], fin.2)
  else ([], s)

/-- Whether an event is a `digitalWrite` to pin `p`. -/
def Event.isWriteTo (p : Int) : Event → Bool
  | .write q _ => q = p
  | _ => false

/-- Whether an event is a `tone` emission. -/
def Event.isTone : Event → Bool
  | .tone _ _ _ => true
  | _ => false

/-- Number of `digitalWrite`s to pin `p` in a trace. -/
def writesCount (p : Int) (tr : List Event) : Nat :=
  (tr.filter (Event.isWriteTo p)).length

/-- Number of `tone` emissions in a trace. -/
def tonesCount (tr : List Event) : Nat :=
  (tr.filter Event.isTone).length

/-- Sequential composition of indexed trace-producing steps, threading the
random generator state. -/
def stateJoin (f : Nat → RandState → List Event × RandState) :
    List Nat → RandState → List Event × RandState
  | [], s => ([], s)
  | i :: rest, s =>
    let p := f i s
    let q := stateJoin f rest p.2
    (p.1 ++ q.1, q.2)

/-- The value written by the last `digitalWrite` to pin `p`, if any. -/
def lastWrite (p : Int) : List Event → Option Int
  | [] => none
  | e :: es =>
    match lastWrite p es with
    | some v => some v
    | none =>
      match e with
      | .write q v => if q = p then some v else none
      | _ => none

/-- The number shown by a 3-bit BCD display after a trace: the last values
written to its A, B, C pins, recombined as `A + 2*B + 4*C`. -/
def displayedDie (pins : List Int) (tr : List Event) : Option Int :=
  match lastWrite (pins.getD 0 0) tr, lastWrite (pins.getD 1 0) tr,
      lastWrite (pins.getD 2 0) tr with
  | some a, some b, some c => some (a + 2 * b + 4 * c)
  | _, _, _ => none

/-- A concrete generator state used to instantiate universally quantified
theorems: the raw draw stream is the identity. -/
def sId : RandState := ⟨fun k => k, 0⟩

/- ## Helper lemmas -/

theorem showNumber_eq_bits (n p0 p1 p2 : Int) :
    showNumber n [p0, p1, p2] =
      [Event.write p0 (bitOf n 0), Event.write p1 (bitOf n 1),
        Event.write p2 (bitOf n 2)] := rfl

theorem bitOf_zero (n : Int) : bitOf n 0 = n.emod 2 := by
  simp [bitOf, Int.fdiv_one]

theorem bitOf_one (n : Int) : bitOf n 1 = (n.fdiv 2).emod 2 := by
  norm_num [bitOf]

theorem bitOf_two (n : Int) : bitOf n 2 = (n.fdiv 4).emod 2 := by
  norm_num [bitOf]

theorem writesCount_append (p : Int) (l1 l2 : List Event) :
    writesCount p (l1 ++ l2) = writesCount p l1 + writesCount p l2 := by
  simp [writesCount, List.filter_append]

theorem tonesCount_append (l1 l2 : List Event) :
    tonesCount (l1 ++ l2) = tonesCount l1 + tonesCount l2 := by
  simp [tonesCount, List.filter_append]

theorem playRollSoundLoop_writes (p : Int) (n : Nat) (s : RandState) :
    writesCount p (playRollSoundLoop n s).1 = 0 := by
  induction n generalizing s with
  | zero => rfl
  | succ n ih =>
    simp only [playRollSoundLoop, writesCount, List.filter]
    have : Event.isWriteTo p (Event.tone buzzerPin
        (500 + (randomUpTo 500 s).1) 20) = false := rfl
    simp only [Event.isWriteTo]
    exact ih _

theorem playRollSound_writes (p : Int) (k : Int) (s : RandState) :
    writesCount p (playRollSound k s).1 = 0 := by
  simp only [playRollSound, writesCount_append, playRollSoundLoop_writes]
  rfl

theorem playRollSoundLoop_tones (n : Nat) (s : RandState) :
    tonesCount (playRollSoundLoop n s).1 = n := by
  induction n generalizing s with
  | zero => rfl
  | succ n ih =>
    simp only [playRollSoundLoop, tonesCount, List.filter]
    simp only [Event.isTone]
    simpa [tonesCount] using ih (randomUpTo 500 s).2

theorem playRollSound_tones (k : Int) (s : RandState) :
    tonesCount (playRollSound k s).1 = k.toNat := by
  simp only [playRollSound, tonesCount_append, playRollSoundLoop_tones]
  rfl

theorem range_three : List.range 3 = [0, 1, 2] := rfl

theorem showNumber_tones (n : Int) (pins : List Int) :
    tonesCount (showNumber n pins) = 0 := by
  simp [showNumber, range_three, tonesCount, Event.isTone]

theorem showNumber_seg1_pin3 (n : Int) :
    writesCount 3 (showNumber n seg1_pins) = 1 := by
  simp [showNumber, seg1_pins, range_three, writesCount, Event.isWriteTo]

theorem showNumber_seg1_pin8 (n : Int) :
    writesCount 8 (showNumber n seg1_pins) = 0 := by
  simp [showNumber, seg1_pins, range_three, writesCount, Event.isWriteTo]

theorem showNumber_seg2_pin3 (n : Int) :
    writesCount 3 (showNumber n seg2_pins) = 0 := by
  simp [showNumber, seg2_pins, range_three, writesCount, Event.isWriteTo]

theorem showNumber_seg2_pin8 (n : Int) :
    writesCount 8 (showNumber n seg2_pins) = 1 := by
  simp [showNumber, seg2_pins, range_three, writesCount, Event.isWriteTo]

theorem rollDiceFrame_pin3 (i : Nat) (d : Int) (s : RandState) :
    writesCount 3 (rollDiceFrame i d s).1 = 1 := by
  simp only [rollDiceFrame, writesCount_append, playRollSound_writes,
    showNumber_seg1_pin3, showNumber_seg2_pin3]
  rfl

theorem rollDiceFrame_pin8 (i : Nat) (d : Int) (s : RandState) :
    writesCount 8 (rollDiceFrame i d s).1 = 1 := by
  simp only [rollDiceFrame, writesCount_append, playRollSound_writes,
    showNumber_seg1_pin8, showNumber_seg2_pin8]
  rfl

theorem rollDiceFrame_tones (i : Nat) (d : Int) (s : RandState) :
    tonesCount (rollDiceFrame i d s).1 = i / 2 := by
  simp only [rollDiceFrame, tonesCount_append, playRollSound_tones,
    showNumber_tones]
  rfl

theorem rollDiceLoop_pin3 (n i : Nat) (d : Int) (s : RandState) :
    writesCount 3 (rollDiceLoop n i d s).1 = n := by
  induction n generalizing i s with
  | zero => rfl
  | succ n ih =>
    simp [rollDiceLoop, writesCount_append, rollDiceFrame_pin3, ih]
    omega

theorem rollDiceLoop_pin8 (n i : Nat) (d : Int) (s : RandState) :
    writesCount 8 (rollDiceLoop n i d s).1 = n := by
  induction n generalizing i s with
  | zero => rfl
  | succ n ih =>
    simp [rollDiceLoop, writesCount_append, rollDiceFrame_pin8, ih]
    omega

theorem rollDiceLoop_eq_stateJoin (n i : Nat) (d : Int) (s : RandState) :
    rollDiceLoop n i d s =
      stateJoin (fun j => rollDiceFrame j d) (List.range' i n) s := by
  induction n generalizing i s with
  | zero => rfl
  | succ n ih =>
    rw [show List.range' i (n + 1) = i :: List.range' (i + 1) n from rfl]
    simp only [rollDiceLoop, stateJoin]
    rw [ih]

theorem randomIn_1_7 (s : RandState) :
    (randomIn 1 7 s).1 = 1 + ((s.stream s.idx : Int)).emod 6 ∧
    1 ≤ (randomIn 1 7 s).1 ∧ (randomIn 1 7 s).1 ≤ 6 ∧
    (randomIn 1 7 s).2 = ⟨s.stream, s.idx + 1⟩ := by
  have h1 : ((s.stream s.idx : Int)).emod 6 ≥ 0 :=
    Int.emod_nonneg _ (by norm_num)
  have h2 : ((s.stream s.idx : Int)).emod 6 < 6 :=
    Int.emod_lt_of_pos _ (by norm_num)
  refine ⟨rfl, by simp [randomIn, randomUpTo]; omega,
    by simp [randomIn, randomUpTo]; omega, rfl⟩

theorem playRollSoundLoop_spec (n : Nat) (s : RandState) :
    ∃ freqs : List Int, freqs.length = n ∧ (∀ f ∈ freqs, 500 ≤ f ∧ f < 1000) ∧
      (playRollSoundLoop n s).1 =
        (freqs.map fun f => [Event.tone buzzerPin f 20, Event.delay 20]).flatten := by
  induction n generalizing s with
  | zero => exact ⟨[], rfl, by simp, rfl⟩
  | succ n ih =>
    obtain ⟨freqs, hlen, hbd, htr⟩ := ih (randomUpTo 500 s).2
    refine ⟨(500 + ((s.stream s.idx : Int)).emod 500) :: freqs, by simp [hlen],
      ?_, ?_⟩
    · intro f hf
      rcases List.mem_cons.mp hf with rfl | hf2
      · have h1 : (0:Int) ≤ ((s.stream s.idx : Int)).emod 500 :=
          Int.emod_nonneg _ (by norm_num)
        have h2 : ((s.stream s.idx : Int)).emod 500 < 500 :=
          Int.emod_lt_of_pos _ (by norm_num)
        omega
      · exact hbd f hf2
    · simp only [playRollSoundLoop, List.map_cons, List.flatten_cons, htr]
      rfl

/- ## Claims -/

/-- C1: for every integer `n` in `[1, 6]` and every 3-element pin sequence
`[p0, p1, p2]`, `showNumber(n, pins)` writes bit `i` of `n` to the `i`-th pin:
`p0` receives `n & 1` (the remainder of `n` mod 2), `p1` receives
`(n >> 1) & 1`, and `p2` receives `(n >> 2) & 1`. -/
theorem C1_showNumber_writes_bits (n p0 p1 p2 : Int) (h1 : 1 ≤ n) (h2 : n ≤ 6) :
    showNumber n [p0, p1, p2] =
      [Event.write p0 (n.emod 2), Event.write p1 ((n.fdiv 2).emod 2),
        Event.write p2 ((n.fdiv 4).emod 2)] := by
  rw [showNumber_eq_bits, bitOf_zero, bitOf_one, bitOf_two]

theorem C1_witness :
    showNumber 3 [3, 4, 5] =
      [Event.write 3 ((3 : Int).emod 2), Event.write 4 (((3 : Int).fdiv 2).emod 2),
        Event.write 5 (((3 : Int).fdiv 4).emod 2)] :=
  C1_showNumber_writes_bits 3 3 4 5 (by decide) (by decide)

/-- C2: whenever either sampled button level (or both) is `LOW`, the poll of
the event loop runs exactly one roll cycle, in order: the 20-frame animation
with base delay 50 ms, then the stop sound, then the final display of two
fresh draws, then a single 300 ms debounce delay — and nothing else, whatever
the other button reads.  The animation performs 20 display updates on die 1
(pin 3 is written exactly 20 times). -/
theorem C2_single_cycle (b1 b2 : Int) (s : RandState) (h : b1 = LOW ∨ b2 = LOW) :
    loopBody b1 b2 s =
      ((rollDice 20 50 s).1 ++ playStopSound ++
          (showResult (rollDice 20 50 s).2).1 ++ [Event.delay 300],
        (showResult (rollDice 20 50 s).2).2) ∧
    writesCount 3 (rollDice 20 50 s).1 = 20 := by
  constructor
  · simp only [loopBody, if_pos h]
  · exact rollDiceLoop_pin3 20 0 50 s

theorem C2_witness :
    loopBody 0 1 sId =
      ((rollDice 20 50 sId).1 ++ playStopSound ++
          (showResult (rollDice 20 50 sId).2).1 ++ [Event.delay 300],
        (showResult (rollDice 20 50 sId).2).2) ∧
    writesCount 3 (rollDice 20 50 sId).1 = 20 :=
  C2_single_cycle 0 1 sId (Or.inl rfl)

/-- C3: for every `count >= 0` and every delay, `rollDice(count, delay)`
performs exactly `count` iterations — its trace is the state-threaded
concatenation of the frames indexed `0, ..., count - 1`, and each die's first
BCD pin (3 for die 1, 8 for die 2) is written exactly `count` times, i.e.
`count` display updates per die.  Each frame `i` invokes the roll sound, then
draws and displays one fresh value in `[1, 6]` per die (two independent
draws), then delays `delay + i * 2` milliseconds. -/
theorem C3_rollDice_iterations (count delayTime : Int) (s : RandState)
    (h : 0 ≤ count) :
    rollDice count delayTime s =
      stateJoin (fun i => rollDiceFrame i delayTime) (List.range count.toNat) s ∧
    writesCount 3 (rollDice count delayTime s).1 = count.toNat ∧
    writesCount 8 (rollDice count delayTime s).1 = count.toNat ∧
    ∀ (i : Nat) (t : RandState), ∃ a b : Int,
      1 ≤ a ∧ a ≤ 6 ∧ 1 ≤ b ∧ b ≤ 6 ∧
      (rollDiceFrame i delayTime t).1 =
        (playRollSound (cIntOfHalf i) t).1 ++ showNumber a seg1_pins ++
          showNumber b seg2_pins ++ [Event.delay (delayTime + i * 2)] := by
  refine ⟨?_, rollDiceLoop_pin3 _ _ _ _, rollDiceLoop_pin8 _ _ _ _, ?_⟩
  · show rollDiceLoop count.toNat 0 delayTime s = _
    rw [rollDiceLoop_eq_stateJoin, List.range_eq_range' count.toNat]
  · intro i t
    refine ⟨(randomIn 1 7 (playRollSound (cIntOfHalf (i : Int)) t).2).1,
      (randomIn 1 7 (randomIn 1 7 (playRollSound (cIntOfHalf (i : Int)) t).2).2).1,
      (randomIn_1_7 _).2.1, (randomIn_1_7 _).2.2.1,
      (randomIn_1_7 _).2.1, (randomIn_1_7 _).2.2.1, rfl⟩

theorem C3_witness :
    (rollDice 2 5 sId =
      stateJoin (fun i => rollDiceFrame i 5) (List.range (2 : Int).toNat) sId ∧
    writesCount 3 (rollDice 2 5 sId).1 = (2 : Int).toNat ∧
    writesCount 8 (rollDice 2 5 sId).1 = (2 : Int).toNat ∧
    ∀ (i : Nat) (t : RandState), ∃ a b : Int,
      1 ≤ a ∧ a ≤ 6 ∧ 1 ≤ b ∧ b ≤ 6 ∧
      (rollDiceFrame i 5 t).1 =
        (playRollSound (cIntOfHalf i) t).1 ++ showNumber a seg1_pins ++
          showNumber b seg2_pins ++ [Event.delay (5 + i * 2)]) :=
  C3_rollDice_iterations 2 5 sId (by decide)

/-- C4: for every `k >= 0`, `playRollSound(k)` emits exactly `k` tones, each
at a pitch in `[500, 1000)` Hz and each followed by a 20 ms gap, and then
silences the buzzer; for `k = 0` it emits no tone and silences the buzzer
immediately. -/
theorem C4_playRollSound_tones (k : Int) (s : RandState) (h : 0 ≤ k) :
    (∃ freqs : List Int, freqs.length = k.toNat ∧
      (∀ f ∈ freqs, 500 ≤ f ∧ f < 1000) ∧
      (playRollSound k s).1 =
        (freqs.map fun f => [Event.tone buzzerPin f 20, Event.delay 20]).flatten
          ++ [Event.noTone buzzerPin]) ∧
    (playRollSound 0 s).1 = [Event.noTone buzzerPin] := by
  obtain ⟨freqs, h1, h2, h3⟩ := playRollSoundLoop_spec k.toNat s
  exact ⟨⟨freqs, h1, h2, by simp only [playRollSound, h3]⟩, rfl⟩

theorem C4_witness :
    (∃ freqs : List Int, freqs.length = (2 : Int).toNat ∧
      (∀ f ∈ freqs, 500 ≤ f ∧ f < 1000) ∧
      (playRollSound 2 sId).1 =
        (freqs.map fun f => [Event.tone buzzerPin f 20, Event.delay 20]).flatten
          ++ [Event.noTone buzzerPin]) ∧
    (playRollSound 0 sId).1 = [Event.noTone buzzerPin] :=
  C4_playRollSound_tones 2 sId (by decide)

/-- C5: the intensity the `rollDice` frame `i` passes to the roll-sound
routine is `(int)(i * 0.5)`, the truncation toward zero of `i * 0.5`, which
for the nonnegative loop index equals `i / 2` rounded down; observably, frame
`i` emits exactly `i / 2` tones, and frames 0 and 1 emit none — the sound
intensity grows at half the rate of the frame index. -/
theorem C5_half_intensity (i : Nat) (d : Int) (s : RandState) :
    cIntOfHalf (i : Int) = ((i / 2 : Nat) : Int) ∧
    tonesCount (rollDiceFrame i d s).1 = i / 2 ∧
    tonesCount (rollDiceFrame 0 d s).1 = 0 ∧
    tonesCount (rollDiceFrame 1 d s).1 = 0 :=
  ⟨rfl, rollDiceFrame_tones i d s, rollDiceFrame_tones 0 d s,
    rollDiceFrame_tones 1 d s⟩

/-- C6: `playStopSound()`, independent of any input or prior state, emits
exactly one tone — at 200 Hz for 100 ms — then blocks 100 ms, then silences
the buzzer. -/
theorem C6_playStopSound_fixed :
    playStopSound =
      [Event.tone buzzerPin 200 100, Event.delay 100, Event.noTone buzzerPin] ∧
    tonesCount playStopSound = 1 :=
  ⟨rfl, rfl⟩

set_option maxRecDepth 4000 in
/-- C7: the final displayed result is produced by two fresh draws (one per
die) made after the animation: `showResult` displays `1 + draw mod 6` from
the next two unconsumed draws of the generator and advances it by exactly
two.  It is not guaranteed to equal the last animation frame: with the
identity draw stream, die 1 after the full cycle shows a different number
than after the animation alone. -/
theorem C7_final_result_fresh (s : RandState) :
    (showResult s).1 =
      showNumber (1 + ((s.stream s.idx : Int)).emod 6) seg1_pins ++
        showNumber (1 + ((s.stream (s.idx + 1) : Int)).emod 6) seg2_pins ∧
    (showResult s).2 = ⟨s.stream, s.idx + 2⟩ ∧
    displayedDie seg1_pins (loopBody 0 1 sId).1 ≠
      displayedDie seg1_pins (rollDice 20 50 sId).1 :=
  ⟨rfl, rfl, by decide⟩

/-- C8: for every integer `n` outside `[1, 6]` — including 0, values of 7 and
above, and negative values — `showNumber(n, pins)` signals no error and still
writes the 3-bit pattern given by the same formula `pins[i] = (n >> i) & 1`
for `i = 0, 1, 2` (arithmetic shift, low two's-complement bit). -/
theorem C8_showNumber_out_of_range (n p0 p1 p2 : Int) (h : n < 1 ∨ 6 < n) :
    showNumber n [p0, p1, p2] =
      [Event.write p0 (n.emod 2), Event.write p1 ((n.fdiv 2).emod 2),
        Event.write p2 ((n.fdiv 4).emod 2)] := by
  rw [showNumber_eq_bits, bitOf_zero, bitOf_one, bitOf_two]

theorem C8_witness :
    showNumber (-1) [3, 4, 5] =
      [Event.write 3 ((-1 : Int).emod 2),
        Event.write 4 (((-1 : Int).fdiv 2).emod 2),
        Event.write 5 (((-1 : Int).fdiv 4).emod 2)] :=
  C8_showNumber_out_of_range (-1) 3 4 5 (Or.inl (by decide))

/-- C9: `showNumber(n, pins)` writes only to the three pins named in `pins`:
any pin not in that 3-element sequence receives no `digitalWrite` from the
call. -/
theorem C9_showNumber_frame (n q : Int) (pins : List Int)
    (hlen : pins.length = 3) (hq : q ∉ pins) :
    writesCount q (showNumber n pins) = 0 := by
  rcases pins with _ | ⟨a, rest⟩
  · simp at hlen
  rcases rest with _ | ⟨b, rest2⟩
  · simp at hlen
  rcases rest2 with _ | ⟨c, rest3⟩
  · simp at hlen
  rcases rest3 with _ | ⟨e, rest4⟩
  · simp only [List.mem_cons, List.not_mem_nil, or_false, not_or] at hq
    rw [showNumber_eq_bits]
    simp [writesCount, Event.isWriteTo, Ne.symm hq.1, Ne.symm hq.2.1,
      Ne.symm hq.2.2]
  · simp at hlen

theorem C9_witness : writesCount 7 (showNumber 2 [3, 4, 5]) = 0 :=
  C9_showNumber_frame 2 7 [3, 4, 5] (by decide) (by decide)

/-- C10: for every `count <= 0` and every delay, `rollDice(count, delay)`
performs zero iterations — its trace is empty (no pin write, no tone, no
delay) and the random generator state is returned unchanged. -/
theorem C10_rollDice_nonpos (count delayTime : Int) (s : RandState)
    (h : count ≤ 0) : rollDice count delayTime s = ([], s) := by
  show rollDiceLoop count.toNat 0 delayTime s = ([], s)
  rw [Int.toNat_of_nonpos h]
  rfl

theorem C10_witness : rollDice (-3) 7 sId = ([], sId) :=
  C10_rollDice_nonpos (-3) 7 sId (by decide)
